import Mathlib

/-!
Shallow embedding of the nolas mail-integration service (the listener's UID
handling, the UID-tracking repository, the webhook dispatcher, the OAuth2
token exchange, MIME attachment extraction, the SMTP reply composition and
the credential handling of the connection manager), together with theorems
settling the specification claims about those components.

Each definition mirrors one Python function of the repository; the file and
function it was translated from is named in its doc comment.
-/

set_option autoImplicit false

namespace Nolas

/-! ## Python string helpers

All string manipulation is carried out by structural recursion on the
character list of the string, mirroring the Python semantics of the
operations the source uses (`in`, `strip`, `split`, `isdigit`, `int`,
`startswith`, `endswith`). -/

/-- Python `needle in hay` on strings: `needle` occurs as a contiguous
substring of `hay`. -/

def strContains (hay needle : String) : Bool :=
  (List.range (hay.data.length + 1)).any (fun i => needle.data.isPrefixOf (hay.data.drop i))

/-- Python `str.startswith`. -/

def pyStartsWith (s pre : String) : Bool :=
  pre.data.isPrefixOf s.data

/-- Python `str.endswith`. -/

def pyEndsWith (s suf : String) : Bool :=
  suf.data.isSuffixOf s.data

/-- Drop leading whitespace of a character list. -/

def stripLeft : List Char → List Char
  | [] => []
  | c :: cs => if c.isWhitespace then stripLeft cs else c :: cs

/-- Python `str.strip` (no arguments): drop whitespace on both ends. -/

def pyStrip (s : String) : String :=
  ⟨((stripLeft s.data).reverse |> stripLeft).reverse⟩

/-- Helper of `pySplitWhitespace`: the accumulator holds the current token
reversed. -/

def splitWhitespaceAux : List Char → List Char → List String
  | [], acc => if acc.isEmpty then [] else [⟨acc.reverse⟩]
  | c :: cs, acc =>
    if c.isWhitespace then
      if acc.isEmpty then splitWhitespaceAux cs []
      else (⟨acc.reverse⟩ : String) :: splitWhitespaceAux cs []
    else splitWhitespaceAux cs (c :: acc)

/-- Python `str.split` with no arguments: split on runs of whitespace,
dropping empty tokens. -/

def pySplitWhitespace (s : String) : List String :=
  splitWhitespaceAux s.data []

/-- Python `str.isdigit` restricted to ASCII: non-empty and all digits. -/

def pyIsDigit (s : String) : Bool :=
  !s.isEmpty && s.data.all Char.isDigit

/-- Python `int` on an all-digit string. -/

def digitsToNat (s : String) : Nat :=
  s.data.foldl (fun n c => 10 * n + (c.toNat - 48)) 0

/-! ## `IMAPListener._parse_search_response` (app/controllers/imap/listener.py)

Each line of the SEARCH response is decoded and stripped; lines containing
`SEARCH completed` or `OK` are skipped; the remaining lines are split on
whitespace and every all-digit token is collected as a UID. -/

/-- UIDs contributed by one decoded line of the SEARCH response. -/

def parseSearchLine (line : String) : List Nat :=
  let lineStr := pyStrip line
  if strContains lineStr "SEARCH completed" || strContains lineStr "OK" then []
  else ((pySplitWhitespace lineStr).filter pyIsDigit).map digitsToNat

/-- `IMAPListener._parse_search_response`: UIDs of all lines, in order. -/

def parseSearchResponse (lines : List String) : List Nat :=
  (lines.map parseSearchLine).flatten

/-! ## `UidTrackingRepo` (app/repos/uid_tracking.py)

The `uid_tracking` table is embedded as a list of rows; `scalar_one_or_none`
selection becomes `List.find?` on the (account, folder) key. -/

/-- One row of the `uid_tracking` table. -/

structure UidRow where
  accountId : Nat
  folder : String
  lastSeenUid : Nat
  deriving Repr, DecidableEq

/-- Row selection by account and folder (`select ... where account_id == .. and folder == ..`). -/

def findUidRow (rows : List UidRow) (accountId : Nat) (folder : String) : Option UidRow :=
  rows.find? (fun r => r.accountId == accountId && r.folder == folder)

/-- `UidTrackingRepo.get_last_seen_uid`: the stored UID, or 0 when no row exists. -/

def getLastSeenUid (rows : List UidRow) (accountId : Nat) (folder : String) : Nat :=
  match findUidRow rows accountId folder with
  | some r => r.lastSeenUid
  | none => 0

/-- `UidTrackingRepo.update_last_seen_uid`: if a row exists it is updated only
when the new UID is greater; otherwise a fresh row with the given UID is added. -/

def updateLastSeenUid (rows : List UidRow) (accountId : Nat) (folder : String) (uid : Nat) :
    List UidRow :=
  match rows with
  | [] => [⟨accountId, folder, uid⟩]
  | r :: rs =>
    if r.accountId == accountId && r.folder == folder then
      (if uid > r.lastSeenUid then { r with lastSeenUid := uid } else r) :: rs
    else
      r :: updateLastSeenUid rs accountId folder uid

/-- A sequence of `update_last_seen_uid` calls, each given as
(account, folder, uid), applied in order. -/

def applyUidUpdates (rows : List UidRow) (ops : List (Nat × String × Nat)) : List UidRow :=
  ops.foldl (fun rs op => updateLastSeenUid rs op.1 op.2.1 op.2.2) rows

/-! ## Email index (`app/models/email.py`, `app/repos/email.py`) and
`IMAPListener._upsert_cache` (app/controllers/imap/listener.py) -/

/-- One row of the `emails` table (the lightweight local index). -/

structure EmailRow where
  accountId : Nat
  emailId : String
  threadId : String
  folder : String
  uid : Nat
  deriving Repr, DecidableEq

/-- The OR-composed predicate of `EmailRepo.get_by_account_and_uid_or_email_id`:
same account AND ((same uid AND same folder) OR same Message-ID). -/

def emailRowMatches (accountId : Nat) (folder : String) (uid : Nat) (emailId : String)
    (r : EmailRow) : Bool :=
  r.accountId == accountId && ((r.uid == uid && r.folder == folder) || r.emailId == emailId)

/-- `IMAPListener._upsert_cache`: skip when the Message-ID header is missing;
otherwise locate an existing row by uid-or-Message-ID and update it when any
field differs, or insert a fresh row. -/

def upsertCache (index : List EmailRow) (accountId : Nat) (messageId : Option String)
    (folder : String) (uid : Nat) (threadId : String) : List EmailRow :=
  match messageId with
  | none => index
  | some mid =>
    match index.find? (emailRowMatches accountId folder uid mid) with
    | some e =>
      if e.emailId != mid || e.uid != uid || e.folder != folder then
        index.map (fun r =>
          if r == e then { r with emailId := mid, uid := uid, folder := folder, threadId := threadId }
          else r)
      else index
    | none => index ++ [⟨accountId, mid, threadId, folder, uid⟩]

/-! ## `IMAPListener._process_new_messages` (app/controllers/imap/listener.py)
and `EmailProcessor.process_email` (app/controllers/imap/email_processor.py) -/

/-- The fields of a parsed RFC-822 message the listener itself consults:
`raw_message.get("Message-ID")`. -/

structure RawMsg where
  messageId : Option String
  deriving Repr, DecidableEq

/-- The canonical message as the listener would use it: after
`process_email` it dereferences only `.thread_id`. -/

structure NylasMsg where
  threadId : String
  deriving Repr, DecidableEq

/-- The value `EmailProcessor.process_email` returns to the listener: the
function is annotated `-> None` and has no return statement, so the listener
always receives Python `None` (the webhook dispatch it performs is recorded
in the caller's trace). -/

def processEmailReturn (accountId : Nat) (folder : String) (uid : Nat) (msg : RawMsg) :
    Option NylasMsg :=
  none

/-- Observable outcome of one `_process_new_messages` pass:
`webhookUids` lists (in order) the UIDs handed to `process_email` and hence
given a webhook dispatch; `lastSeenUid` is the session value of the
uid-tracking row for this (account, folder); `emailIndex`/`upsertedUids`
reflect `_upsert_cache`; `committed` records whether the end-of-batch
`commit()` ran; `raised` whether the pass ended in an exception. -/

structure PollOutcome where
  webhookUids : List Nat
  lastSeenUid : Nat
  emailIndex : List EmailRow
  upsertedUids : List Nat
  committed : Bool
  raised : Bool
  deriving Repr, DecidableEq

/-- The `for uid, message_bytes in messages.items()` loop of
`_process_new_messages`: per message, `process_email` dispatches the webhook
and returns `None`; `_update_last_seen_uid` advances the session watermark by
`max` (see `updateLastSeenUid`); then the listener evaluates
`nylas_message.thread_id`, which on `None` raises `AttributeError`, aborting
the loop before `_upsert_cache` and before the remaining messages. -/

def processLoop (accountId : Nat) (folder : String) (msgs : List (Nat × RawMsg))
    (lastSeenUid : Nat) (index : List EmailRow) : PollOutcome :=
  match msgs with
  | [] => ⟨[], lastSeenUid, index, [], false, false⟩
  | (uid, m) :: rest =>
    let nylasMessage := processEmailReturn accountId folder uid m
    let lastSeen' := max lastSeenUid uid
    match nylasMessage with
    | none => ⟨[uid], lastSeen', index, [], false, true⟩
    | some nm =>
      let index' := upsertCache index accountId m.messageId folder uid nm.threadId
      let restOutcome := processLoop accountId folder rest lastSeen' index'
      ⟨uid :: restOutcome.webhookUids, restOutcome.lastSeenUid, restOutcome.emailIndex,
        uid :: restOutcome.upsertedUids, restOutcome.committed, restOutcome.raised⟩

/-- `IMAPListener._process_new_messages`: parse the SEARCH response; when the
UID list is non-empty, fetch and process every parsed message (`fetched` is
the parsed FETCH response, a uid-to-bytes map in insertion order); the
trailing `self._uid_tracking_repo.commit()` runs only when no exception was
raised. No UID of the SEARCH result is compared against the watermark. -/

def processNewMessages (accountId : Nat) (folder : String) (lastSeenUid : Nat)
    (searchLines : List String) (fetched : List (Nat × RawMsg)) (index : List EmailRow) :
    PollOutcome :=
  let uids := parseSearchResponse searchLines
  if uids.isEmpty then ⟨[], lastSeenUid, index, [], true, false⟩
  else
    let o := processLoop accountId folder fetched lastSeenUid index
    if o.raised then o else { o with committed := true }

/-! ## Webhook dispatcher (`app/controllers/imap/email_processor.py`)

`send_webhook_with_retry` loops `for attempt in range(1, max_retries + 1)`,
re-serializing the payload (whose `webhook_delivery_attempt` field is the
attempt number) and re-signing it each attempt. The JSON serialization of
the envelope and the HMAC-SHA256 hex digest are produced by the Python
standard library; they enter the embedding as the function parameters
`payloadJson` (body of a given attempt) and `hmacHex` (digest of a body
under a secret). `settings.webhook.max_retries` defaults to 3. -/

/-- Default of `WEBHOOK_MAX_RETRIES` (settings/settings.py). -/

def webhookMaxRetriesDefault : Nat := 3

/-- `EmailProcessor._generate_signature`: empty secret yields the empty
string, otherwise the hex HMAC-SHA256 digest of the body under the secret. -/

def generateSignature (hmacHex : String → String → String)
    (messageBody webhookSecret : String) : String :=
  if webhookSecret.isEmpty then "" else hmacHex webhookSecret messageBody

/-- Result of one HTTP POST of the webhook: a response with a status code
and body, a timeout, or a transport error. -/

inductive AttemptOutcome where
  | status (code : Nat) (body : String)
  | timeout
  | transportError (msg : String)

/-- One row written by `EmailProcessor._log_webhook_delivery`; `delivered`
stands for `delivered_at` being non-null. -/

structure WebhookLogRow where
  statusCode : Option Nat
  responseBody : Option String
  attempts : Nat
  delivered : Bool
  deriving Repr, DecidableEq

/-- One POST as sent: the exact body string and the `x-nylas-signature`
header when attached. -/

structure WebhookRequest where
  body : String
  signature : Option String
  deriving Repr, DecidableEq

/-- Trace of one `send_webhook_with_retry` call: the requests actually
POSTed, the WebhookLog rows persisted, the back-off sleeps (in seconds)
between attempts, and the returned boolean. -/

structure RetryTrace where
  requests : List WebhookRequest
  logs : List WebhookLogRow
  sleeps : List Nat
  result : Bool
  deriving Repr, DecidableEq

/-- The request of a given attempt: body `payload_json`, and the signature
header exactly when `_generate_signature` returned a non-empty string. -/

def webhookAttempt (hmacHex : String → String → String) (payloadJson : Nat → String)
    (secret : String) (attempt : Nat) : WebhookRequest :=
  let body := payloadJson attempt
  let signature := generateSignature hmacHex body secret
  ⟨body, if signature.isEmpty then none else some signature⟩

/-- Shared tail of the non-terminating branches of the retry loop: when
further attempts remain, sleep `base * 2^(attempt-1)` (base = 1 s) and
continue with `rest`; otherwise the loop ends returning `False`. -/

def retryContinue (req : WebhookRequest) (log : WebhookLogRow) (attempt remaining : Nat)
    (rest : RetryTrace) : RetryTrace :=
  if remaining == 0 then ⟨[req], [log], [], false⟩
  else ⟨req :: rest.requests, log :: rest.logs, 2 ^ (attempt - 1) :: rest.sleeps, rest.result⟩

/-- The retry loop of `EmailProcessor.send_webhook_with_retry`, begun at a
given attempt number with a given number of remaining loop iterations.
Per attempt: POST; on a response, log the row (body recorded only for
non-200, `delivered` iff status equals 200), return `True` on 200, return
`False` immediately on 4xx; on timeout or transport error log the failure
row; in all remaining cases back off and retry while attempts remain. -/

def runWebhookAttempts (hmacHex : String → String → String) (payloadJson : Nat → String)
    (secret : String) (outcome : Nat → AttemptOutcome) : Nat → Nat → RetryTrace
  | _, 0 => ⟨[], [], [], false⟩
  | attempt, remaining + 1 =>
    let req := webhookAttempt hmacHex payloadJson secret attempt
    let rest := runWebhookAttempts hmacHex payloadJson secret outcome (attempt + 1) remaining
    match outcome attempt with
    | .status code body =>
      let log : WebhookLogRow :=
        ⟨some code, if code = 200 then none else some body, attempt, decide (code = 200)⟩
      if code = 200 then ⟨[req], [log], [], true⟩
      else if 400 ≤ code ∧ code < 500 then ⟨[req], [log], [], false⟩
      else retryContinue req log attempt remaining rest
    | .timeout => retryContinue req ⟨none, some "Timeout", attempt, false⟩ attempt remaining rest
    | .transportError msg =>
      retryContinue req ⟨none, some msg, attempt, false⟩ attempt remaining rest

/-- `EmailProcessor.send_webhook_with_retry`: attempts are numbered from 1;
the secret is `account.app.webhook_secret or ""`. -/

def sendWebhookWithRetry (hmacHex : String → String → String) (payloadJson : Nat → String)
    (webhookSecret : Option String) (outcome : Nat → AttemptOutcome) (maxRetries : Nat) :
    RetryTrace :=
  runWebhookAttempts hmacHex payloadJson (webhookSecret.getD "") outcome 1 maxRetries

/-- The retry policy actually implemented, as a predicate on the trace of a
loop begun at attempt number `attempt` with `remaining` iterations left:
at most `remaining` attempts; the requests are exactly the per-attempt
signed bodies in attempt order; the log rows carry consecutive attempt
numbers; a row is marked delivered exactly when its status is 200; the
back-off before attempt k+1 is 2^(k-1) seconds; the call returns `True`
exactly when some attempt got a 200; every non-final attempt was a
retryable outcome (neither 200 nor a 4xx); and at least one attempt is made
when any iterations remain. -/

def RetryTraceSpec (hmacHex : String → String → String) (payloadJson : Nat → String)
    (secret : String) (t : RetryTrace) (attempt remaining : Nat) : Prop :=
  t.logs.length ≤ remaining
  ∧ t.requests = (List.range' attempt t.logs.length).map
      (webhookAttempt hmacHex payloadJson secret)
  ∧ t.logs.map WebhookLogRow.attempts = List.range' attempt t.logs.length
  ∧ (∀ log ∈ t.logs, log.delivered = true ↔ log.statusCode = some 200)
  ∧ t.sleeps = (List.range' attempt (t.logs.length - 1)).map (fun k => 2 ^ (k - 1))
  ∧ (t.result = true ↔ ∃ log ∈ t.logs, log.statusCode = some 200)
  ∧ (∀ log ∈ t.logs.dropLast, log.statusCode ≠ some 200
      ∧ ∀ c, log.statusCode = some c → c < 400 ∨ 500 ≤ c)
  ∧ (1 ≤ remaining → t.logs ≠ [])

/-! ## OAuth2 token exchange (`app/api/v3/connect.py` `token_exchange`,
`app/models/oauth2.py`, `app/repos/oauth2.py`) -/

/-- The fields of an `oauth2_authorization_requests` row the token exchange
consults, together with the activation state of the bound account.
Modelled from the spec: `AccountRepo.mark_as_active` is called by the
endpoint but the `AccountRepo` in `app/repos/account.py` does not define it
(that file is a stale session-based variant); per the spec's
"AccountRepo: ... mark active/inactive", activation transitions the bound
account to `active`, recorded here in `accountActive`. -/

structure AuthCodeRow where
  appId : Nat
  redirectUri : String
  code : String
  codeUsed : Bool
  expiresAt : Nat
  accountUuid : String
  accountActive : Bool
  deriving Repr, DecidableEq

/-- `OAuth2AuthorizationRequest.is_valid`: not used yet and not expired
(times in epoch seconds). -/

def isValidAuthCode (r : AuthCodeRow) (now : Nat) : Bool :=
  !r.codeUsed && decide (now < r.expiresAt)

/-- The fields of an `apps` row the token exchange consults (the app was
resolved from the bearer token). -/

structure AppRow where
  id : Nat
  uuid : String
  deriving Repr, DecidableEq

/-- The JSON body of POST /v3/connect/token (`OAuth2TokenRequest`). -/

structure TokenReq where
  grantType : String
  code : String
  redirectUri : String
  clientId : String
  deriving Repr, DecidableEq

/-- Outcome of the endpoint: the grant id of the activated account, or the
status and detail of the `HTTPException` raised. -/

inductive TokenResult where
  | ok (grantId : String)
  | err (status : Nat) (detail : String)
  deriving Repr, DecidableEq

/-- `OAuth2AuthorizationRequestRepo.get_by_code`. -/

def getByCode (rows : List AuthCodeRow) (code : String) : Option AuthCodeRow :=
  rows.find? (fun r => r.code == code)

/-- `mark_as_used` on the fetched row, combined with `mark_as_active` on its
account (see `AuthCodeRow` for the account side). -/

def markUsedActivate : List AuthCodeRow → String → List AuthCodeRow
  | [], _ => []
  | r :: rs, code =>
    if r.code == code then { r with codeUsed := true, accountActive := true } :: rs
    else r :: markUsedActivate rs code

/-- `token_exchange` (POST /v3/connect/token): the validations in code
order with the status codes of the exceptions raised; on success the code
is marked used, the account activated, and the account uuid returned as
`grant_id`. Failures leave the stored rows unchanged. -/

def tokenExchange (rows : List AuthCodeRow) (app : AppRow) (req : TokenReq) (now : Nat) :
    TokenResult × List AuthCodeRow :=
  if req.grantType ≠ "authorization_code" then
    (.err 400 "Unsupported grant_type. Must be 'authorization_code'.", rows)
  else if req.clientId ≠ app.uuid then (.err 401 "Invalid client_id.", rows)
  else
    match getByCode rows req.code with
    | none => (.err 400 "Invalid authorization code.", rows)
    | some row =>
      if ¬ isValidAuthCode row now then
        (.err 400 "Authorization code expired or already used.", rows)
      else if row.redirectUri ≠ req.redirectUri then (.err 400 "Invalid redirect_uri.", rows)
      else if row.appId ≠ app.id then
        (.err 401 "Authorization code not issued for this application.", rows)
      else (.ok row.accountUuid, markUsedActivate rows req.code)

/-! ## MIME attachment extraction (`app/utils/message_utils.py`
`MessageUtils.extract_attachments` / `extract_attachment_content`, and
`app/controllers/imap/message_controller.py`
`MessageController._extract_attachments`) -/

/-- One part yielded by Python's `Message.walk()`: the stringified
Content-Disposition header (empty when absent), `get_filename()`, the
content type, and the decoded payload bytes of `get_payload(decode=True)`
(`none` models a `None` payload, as returned for container parts). -/

structure MimePart where
  contentDisposition : String
  filename : Option String
  contentType : String
  payload : Option (List Nat)
  deriving Repr, DecidableEq

/-- A parsed message as the extractors see it: `is_multipart()` and the
parts in `walk()` order (the message object itself first, then every
subpart recursively). -/

structure PyMessage where
  isMultipart : Bool
  walkParts : List MimePart
  deriving Repr, DecidableEq

/-- A listed attachment (`MessageAttachment`): id, filename, decoded-payload
size, content type. -/

structure AttachmentMeta where
  id : String
  filename : String
  size : Nat
  contentType : String
  deriving Repr, DecidableEq

/-- The walk of `MessageUtils.extract_attachments`: `attachment_index`
starts at 1 and increments only for parts whose Content-Disposition
contains `attachment` and that have a filename; such parts are listed as
`att_<attachment_index>` with `len(payload)` as size (0 for a `None`
payload). -/

def muExtractAttachmentsWalk : List MimePart → Nat → List AttachmentMeta
  | [], _ => []
  | p :: ps, idx =>
    if strContains p.contentDisposition "attachment" then
      match p.filename with
      | some fn =>
        ⟨"att_" ++ toString idx, fn, (p.payload.getD []).length, p.contentType⟩
          :: muExtractAttachmentsWalk ps (idx + 1)
      | none => muExtractAttachmentsWalk ps idx
    else muExtractAttachmentsWalk ps idx

/-- `MessageUtils.extract_attachments`. -/

def muExtractAttachments (msg : PyMessage) : List AttachmentMeta :=
  if msg.isMultipart then muExtractAttachmentsWalk msg.walkParts 1 else []

/-- The walk of `MessageUtils.extract_attachment_content`: same counting as
`muExtractAttachmentsWalk`; on the matching id the payload is returned only
when it is truthy bytes (non-`None` and non-empty), otherwise the walk
continues (and, the ids being unique, ends in `none`). -/

def muExtractAttachmentContentWalk : List MimePart → Nat → String → Option (List Nat)
  | [], _, _ => none
  | p :: ps, idx, attachmentId =>
    if strContains p.contentDisposition "attachment" then
      match p.filename with
      | some _ =>
        if "att_" ++ toString idx = attachmentId then
          match p.payload with
          | some bs =>
            if bs.isEmpty then muExtractAttachmentContentWalk ps (idx + 1) attachmentId
            else some bs
          | none => muExtractAttachmentContentWalk ps (idx + 1) attachmentId
        else muExtractAttachmentContentWalk ps (idx + 1) attachmentId
      | none => muExtractAttachmentContentWalk ps idx attachmentId
    else muExtractAttachmentContentWalk ps idx attachmentId

/-- `MessageUtils.extract_attachment_content`. -/

def muExtractAttachmentContent (msg : PyMessage) (attachmentId : String) : Option (List Nat) :=
  if msg.isMultipart then muExtractAttachmentContentWalk msg.walkParts 1 attachmentId
  else none

/-- The walk of `MessageController._extract_attachments`
(`for i, part in enumerate(msg.walk())`): the id is `att_<i>` where `i` is
the 0-based position of the part in the whole walk, counting every part. -/

def mcExtractAttachmentsWalk : List MimePart → Nat → List AttachmentMeta
  | [], _ => []
  | p :: ps, i =>
    if strContains p.contentDisposition "attachment" then
      match p.filename with
      | some fn =>
        ⟨"att_" ++ toString i, fn, (p.payload.getD []).length, p.contentType⟩
          :: mcExtractAttachmentsWalk ps (i + 1)
      | none => mcExtractAttachmentsWalk ps (i + 1)
    else mcExtractAttachmentsWalk ps (i + 1)

/-- `MessageController._extract_attachments`, the extractor behind the
message objects served by the API (GET message / attachment metadata /
download lookup); its `grant_id` field is not modelled. -/

def mcExtractAttachments (msg : PyMessage) : List AttachmentMeta :=
  if msg.isMultipart then mcExtractAttachmentsWalk msg.walkParts 0 else []

/-- A typical stored message: the multipart container (walk position 0), a
text body part (position 1), and one attachment part (position 2) with
decoded payload bytes `[1, 2, 3]`. -/

def mixedMessageExample : PyMessage :=
  ⟨true,
   [⟨"", none, "multipart/mixed", none⟩,
    ⟨"", none, "text/plain", some [104, 105]⟩,
    ⟨"attachment; filename=a.txt", some "a.txt", "application/pdf", some [1, 2, 3]⟩]⟩

/-! ## Credential handling (`app/utils/password.py` `PasswordUtils`,
`app/controllers/imap/connection.py` `ConnectionManager._create_new_connection`,
`app/controllers/smtp/smtp_controller.py` `SMTPController._send_smtp_message`) -/

/-- The symmetric authenticated cipher behind `PasswordUtils`
(`cryptography.fernet.Fernet`): standard-library code, entering the
embedding as a pair of functions. -/

structure Cipher where
  enc : String → String
  dec : String → String

/-- `PasswordUtils.encrypt_password`. -/

def encryptPassword (c : Cipher) (password : String) : String := c.enc password

/-- `PasswordUtils.decrypt_password`. -/

def decryptPassword (c : Cipher) (password : String) : String := c.dec password

/-- The account fields the login paths consult; `credentials` is the stored
blob, written as `PasswordUtils.encrypt_password(password)` at
authorization (`app/controllers/grant/authorization_controller.py`). -/

structure AccountCreds where
  email : String
  credentials : String
  deriving Repr, DecidableEq

/-- The password argument of the IMAP LOGIN issued by
`ConnectionManager._create_new_connection`:
`connection.login(account.email, account.credentials)` — the stored blob
itself. -/

def imapLoginPassword (account : AccountCreds) : String :=
  account.credentials

/-- The password argument of the SMTP login issued by
`SMTPController._send_smtp_message`:
`PasswordUtils.decrypt_password(account.credentials)`. -/

def smtpLoginPassword (c : Cipher) (account : AccountCreds) : String :=
  decryptPassword c account.credentials

/-- Concrete stand-in cipher for evaluation: Fernet tokens are tagged
opaque blobs never equal to the plaintext; here encryption prefixes a
5-character tag and decryption strips it. -/

def fernetModel : Cipher :=
  ⟨fun p => "gAAAA" ++ p, fun s => ⟨s.data.drop 5⟩⟩

/-! ## SMTP reply threading (`app/controllers/smtp/smtp_controller.py`
`SMTPController.send_email` / `_create_message`, `app/utils/message_utils.py`
`MessageUtils.format_message_id` / `parse_references`) -/

/-- `MessageUtils.format_message_id`: wrap in angle brackets when the id
does not already start with `<`; then append `>` when still missing. -/

def formatMessageId (messageId : String) : String :=
  let withStart := if pyStartsWith messageId "<" then messageId else "<" ++ messageId ++ ">"
  if pyEndsWith withStart ">" then withStart else withStart ++ ">"

/-- `MessageUtils.parse_references`: whitespace-split tokens of the
References header that are `<...>`-delimited, in order; `none` models a
missing header (and a falsy empty header yields `[]` alike). -/

def parseReferences (referencesHeader : Option String) : List String :=
  match referencesHeader with
  | none => []
  | some h =>
    (pySplitWhitespace h).filter
      (fun r => !r.isEmpty && pyStartsWith r "<" && pyEndsWith r ">")

/-- Python `" ".join`. -/

def joinSpace : List String → String
  | [] => ""
  | [s] => s
  | s :: rest => s ++ " " ++ joinSpace rest

/-- The replied-message data `SMTPController.send_email` consults: the raw
message's References header, `replied_message.message.id` and
`.thread_id`. -/

structure RepliedMessage where
  referencesHeader : Option String
  messageId : String
  threadId : String
  deriving Repr, DecidableEq

/-- The threading headers set by `SMTPController._create_message`:
`In-Reply-To` only for a truthy `reply_to_message_id`, `References` only
for a non-empty references list, plus the freshly generated `Message-ID`. -/

structure ComposedHeaders where
  inReplyTo : Option String
  references : Option String
  messageId : String
  deriving Repr, DecidableEq

/-- `SMTPController._create_message`, restricted to the threading headers;
`newMessageId` stands for the generated `<uuid@domain>` id. -/

def createMessageHeaders (newMessageId : String) (replyToMessageId : Option String)
    (references : List String) : ComposedHeaders :=
  { inReplyTo :=
      match replyToMessageId with
      | none => none
      | some rid => if rid.isEmpty then none else some (formatMessageId rid)
  , references := if references.isEmpty then none else some (joinSpace references)
  , messageId := newMessageId }

/-- Composed headers and returned thread id of one send. -/

structure SendOutcome where
  headers : ComposedHeaders
  threadId : String
  deriving Repr, DecidableEq

/-- The threading behavior of `SMTPController.send_email`: the references
list is the replied message's parsed References followed by its formatted
Message-ID (just the formatted id when it had none); `reply_to_message_id`
passed to `_create_message` is the replied message's id; the returned
`thread_id` is the replied message's thread id, else the new message id. -/

def smtpSendEmail (replied : Option RepliedMessage) (newMessageId : String) : SendOutcome :=
  let references : List String :=
    match replied with
    | none => []
    | some r =>
      let originalReferences := parseReferences r.referencesHeader
      let formattedReplyId := formatMessageId r.messageId
      if originalReferences.isEmpty then [formattedReplyId]
      else originalReferences ++ [formattedReplyId]
  let headers :=
    createMessageHeaders newMessageId (replied.map RepliedMessage.messageId) references
  { headers := headers
  , threadId :=
      match replied with
      | some r => r.threadId
      | none => newMessageId }

/-! ## Theorems -/

theorem findUidRow_nil (accountId : Nat) (folder : String) :
    findUidRow [] accountId folder = none := rfl

theorem findUidRow_cons (r : UidRow) (rs : List UidRow) (accountId : Nat) (folder : String) :
    findUidRow (r :: rs) accountId folder =
      if r.accountId == accountId && r.folder == folder then some r
      else findUidRow rs accountId folder := by
  simp only [findUidRow, List.find?]
  rcases h : (r.accountId == accountId && r.folder == folder) <;> simp [h]

theorem getLastSeenUid_updateLastSeenUid_self (rows : List UidRow) (accountId : Nat)
    (folder : String) (uid : Nat) :
    getLastSeenUid (updateLastSeenUid rows accountId folder uid) accountId folder
      = max (getLastSeenUid rows accountId folder) uid := by
  induction rows with
  | nil =>
    simp [getLastSeenUid, updateLastSeenUid, findUidRow_cons, findUidRow_nil]
  | cons r rs ih =>
    rcases h : (r.accountId == accountId && r.folder == folder) with _ | _
    · simp only [getLastSeenUid, updateLastSeenUid, h, Bool.false_eq_true, if_false,
        findUidRow_cons] at *
      exact ih
    · rcases hlt : decide (uid > r.lastSeenUid) with _ | _
      · have hle : ¬ uid > r.lastSeenUid := of_decide_eq_false hlt
        simp only [getLastSeenUid, updateLastSeenUid, h, if_true, hle, if_false, findUidRow_cons]
        omega
      · have hgt : uid > r.lastSeenUid := of_decide_eq_true hlt
        simp only [getLastSeenUid, updateLastSeenUid, h, if_true, hgt, findUidRow_cons]
        omega

theorem getLastSeenUid_updateLastSeenUid_le (rows : List UidRow) (accountId : Nat)
    (folder : String) (accountId' : Nat) (folder' : String) (uid : Nat) :
    getLastSeenUid rows accountId folder
      ≤ getLastSeenUid (updateLastSeenUid rows accountId' folder' uid) accountId folder := by
  induction rows with
  | nil => simp [getLastSeenUid, findUidRow_nil]
  | cons r rs ih =>
    rcases h : (r.accountId == accountId' && r.folder == folder') with _ | _
    · rcases h2 : (r.accountId == accountId && r.folder == folder) with _ | _
      · simp only [getLastSeenUid, updateLastSeenUid, h, Bool.false_eq_true, if_false,
          findUidRow_cons, h2]
        exact ih
      · simp [getLastSeenUid, updateLastSeenUid, h, findUidRow_cons, h2]
    · rcases hlt : decide (uid > r.lastSeenUid) with _ | _
      · have hle : ¬ uid > r.lastSeenUid := of_decide_eq_false hlt
        simp [getLastSeenUid, updateLastSeenUid, h, hle, findUidRow_cons]
      · have hgt : uid > r.lastSeenUid := of_decide_eq_true hlt
        rcases h2 : (r.accountId == accountId && r.folder == folder) with _ | _
        · simp [getLastSeenUid, updateLastSeenUid, h, hgt, findUidRow_cons, h2]
        · simp only [getLastSeenUid, updateLastSeenUid, h, if_true, hgt, findUidRow_cons, h2]
          omega

theorem getLastSeenUid_applyUidUpdates_le (ops : List (Nat × String × Nat)) (rows : List UidRow)
    (accountId : Nat) (folder : String) :
    getLastSeenUid rows accountId folder
      ≤ getLastSeenUid (applyUidUpdates rows ops) accountId folder := by
  induction ops generalizing rows with
  | nil => simp [applyUidUpdates]
  | cons op ops ih =>
    calc getLastSeenUid rows accountId folder
        ≤ getLastSeenUid (updateLastSeenUid rows op.1 op.2.1 op.2.2) accountId folder :=
          getLastSeenUid_updateLastSeenUid_le rows accountId folder op.1 op.2.1 op.2.2
      _ ≤ getLastSeenUid (applyUidUpdates rows (op :: ops)) accountId folder := ih _

/-- C3: for every (account, folder) and every call of
`UidTrackingRepo.update_last_seen_uid`, the stored last-seen UID afterwards
equals `max(old, uid)` (a fresh row with value `uid` when none existed, since
the old value then reads as 0); hence the watermark never decreases across any
sequence of updates; and `get_last_seen_uid` returns 0 when no row exists. -/
theorem claim_C3_monotonic_watermark (rows : List UidRow) (accountId : Nat) (folder : String)
    (uid : Nat) (ops : List (Nat × String × Nat)) :
    getLastSeenUid (updateLastSeenUid rows accountId folder uid) accountId folder
        = max (getLastSeenUid rows accountId folder) uid
      ∧ getLastSeenUid [] accountId folder = 0
      ∧ getLastSeenUid rows accountId folder
          ≤ getLastSeenUid (applyUidUpdates rows ops) accountId folder :=
  ⟨getLastSeenUid_updateLastSeenUid_self rows accountId folder uid,
   rfl,
   getLastSeenUid_applyUidUpdates_le ops rows accountId folder⟩

theorem processNewMessages_cons_eq (accountId : Nat) (folder : String) (lastSeen : Nat)
    (lines : List String) (uid : Nat) (m : RawMsg) (rest : List (Nat × RawMsg))
    (index : List EmailRow) (h : parseSearchResponse lines ≠ []) :
    processNewMessages accountId folder lastSeen lines ((uid, m) :: rest) index
      = ⟨[uid], max lastSeen uid, index, [], false, true⟩ := by
  have hne : (parseSearchResponse lines).isEmpty = false := by
    rcases hp : parseSearchResponse lines with _ | _
    · exact absurd hp h
    · rfl
  simp [processNewMessages, hne, processLoop, processEmailReturn]

theorem processNewMessages_nil_search (accountId : Nat) (folder : String) (lastSeen : Nat)
    (lines : List String) (fetched : List (Nat × RawMsg)) (index : List EmailRow)
    (h : parseSearchResponse lines = []) :
    processNewMessages accountId folder lastSeen lines fetched index
      = ⟨[], lastSeen, index, [], true, false⟩ := by
  simp [processNewMessages, h]

/-- C10: `EmailProcessor.process_email` always returns `None`, while
`IMAPListener._process_new_messages` binds its result and dereferences
`.thread_id` on it; therefore for every non-empty batch the per-message loop
raises on the first message right after its webhook attempt and watermark
update, so the Email-index upsert for that message, the processing of the
remaining UIDs of the batch, and the end-of-batch commit are unreachable in
that pass. -/
theorem claim_C10_process_email_none_aborts_batch
    (accountId : Nat) (folder : String) (lastSeen : Nat) (lines : List String)
    (uid : Nat) (m : RawMsg) (rest : List (Nat × RawMsg)) (index : List EmailRow)
    (h : parseSearchResponse lines ≠ []) :
    processEmailReturn accountId folder uid m = none
    ∧ processNewMessages accountId folder lastSeen lines ((uid, m) :: rest) index
        = ⟨[uid], max lastSeen uid, index, [], false, true⟩ :=
  ⟨rfl, processNewMessages_cons_eq accountId folder lastSeen lines uid m rest index h⟩

/-- Witness for C10 at a concrete two-message batch: only the first UID gets
a webhook attempt and a watermark update; no upsert, no commit, exception
raised. -/
theorem claim_C10_witness :
    processEmailReturn 1 "INBOX" 1 ⟨some "<a@b>"⟩ = none
    ∧ processNewMessages 1 "INBOX" 0 ["1 2"] [(1, ⟨some "<a@b>"⟩), (2, ⟨some "<c@d>"⟩)] []
        = ⟨[1], 1, [], [], false, true⟩ :=
  claim_C10_process_email_none_aborts_batch 1 "INBOX" 0 ["1 2"] 1 ⟨some "<a@b>"⟩
    [(2, ⟨some "<c@d>"⟩)] [] (by decide)

/-- C1 counterexample: with watermark 3, a SEARCH response whose parsed UIDs
are all ≤ 3 (the single line `3`, as an IMAP server returns for
`UID 4:*` on a three-message mailbox) still produces a webhook attempt for
UID 3, refuting "zero webhook attempts"; the watermark is unchanged. -/
theorem claim_C1_counterexample :
    (∀ u ∈ parseSearchResponse ["3"], u ≤ 3)
    ∧ (processNewMessages 1 "INBOX" 3 ["3"] [(3, ⟨some "<m@d>"⟩)] []).webhookUids = [3]
    ∧ (processNewMessages 1 "INBOX" 3 ["3"] [(3, ⟨some "<m@d>"⟩)] []).lastSeenUid = 3 := by
  refine ⟨by decide, by decide, by decide⟩

/-- C1 amended: the listener never compares the parsed SEARCH result against
the watermark — every UID of the fetched batch is handed to the webhook
dispatcher, so webhook attempts are only for UIDs present in the batch; a
pass whose parsed SEARCH response is empty produces zero webhook attempts,
leaves the watermark unchanged, and commits; and the watermark never
decreases in any pass. -/
theorem claim_C1_amended (accountId : Nat) (folder : String) (lastSeen : Nat)
    (lines : List String) (fetched : List (Nat × RawMsg)) (index : List EmailRow) :
    (parseSearchResponse lines = [] →
      processNewMessages accountId folder lastSeen lines fetched index
        = ⟨[], lastSeen, index, [], true, false⟩)
    ∧ (∀ u ∈ (processNewMessages accountId folder lastSeen lines fetched index).webhookUids,
        u ∈ fetched.map Prod.fst)
    ∧ lastSeen ≤ (processNewMessages accountId folder lastSeen lines fetched index).lastSeenUid := by
  refine ⟨processNewMessages_nil_search accountId folder lastSeen lines fetched index, ?_, ?_⟩
  · intro u hu
    rcases hp : parseSearchResponse lines with _ | ⟨v, vs⟩
    · rw [processNewMessages_nil_search accountId folder lastSeen lines fetched index hp] at hu
      simp at hu
    · rcases fetched with _ | ⟨⟨uid, m⟩, rest⟩
      · simp [processNewMessages, hp, processLoop] at hu
      · rw [processNewMessages_cons_eq accountId folder lastSeen lines uid m rest index
          (by rw [hp]; exact List.cons_ne_nil v vs)] at hu
        simp at hu
        simp [hu]
  · rcases hp : parseSearchResponse lines with _ | ⟨v, vs⟩
    · rw [processNewMessages_nil_search accountId folder lastSeen lines fetched index hp]
    · rcases fetched with _ | ⟨⟨uid, m⟩, rest⟩
      · simp [processNewMessages, hp, processLoop]
      · rw [processNewMessages_cons_eq accountId folder lastSeen lines uid m rest index
          (by rw [hp]; exact List.cons_ne_nil v vs)]
        exact Nat.le_max_left lastSeen uid

/-- Witness for C1 (empty parsed SEARCH response at a concrete input). -/
theorem claim_C1_witness :
    processNewMessages 1 "INBOX" 3 ["* OK SEARCH completed"] [] []
      = ⟨[], 3, [], [], true, false⟩ :=
  (claim_C1_amended 1 "INBOX" 3 ["* OK SEARCH completed"] [] []).1 (by decide)

/-- C2 counterexample: the Email index already holds a row whose `email_id`
equals the incoming message's Message-ID, yet the pass still dispatches a
webhook for it (and performs no upsert), refuting the suppression claim. -/
theorem claim_C2_counterexample :
    "<m@d>" ∈ ([⟨1, "<m@d>", "<m@d>", "INBOX", 5⟩] : List EmailRow).map EmailRow.emailId
    ∧ (processNewMessages 1 "Sent" 0 ["1"] [(1, ⟨some "<m@d>"⟩)]
        [⟨1, "<m@d>", "<m@d>", "INBOX", 5⟩]).webhookUids = [1]
    ∧ (processNewMessages 1 "Sent" 0 ["1"] [(1, ⟨some "<m@d>"⟩)]
        [⟨1, "<m@d>", "<m@d>", "INBOX", 5⟩]).upsertedUids = [] := by
  refine ⟨by decide, by decide, by decide⟩

/-- C2 amended: no self-send suppression exists — the listener never queries
the Email index before dispatching: a message whose Message-ID is already
present in the index still gets a webhook attempt; its index row is NOT
upserted in that pass (the pass aborts on the processor's `None` result
before `_upsert_cache`), while the watermark still advances in the session. -/
theorem claim_C2_amended (accountId : Nat) (folder : String) (lastSeen : Nat)
    (lines : List String) (uid : Nat) (m : RawMsg) (rest : List (Nat × RawMsg))
    (index : List EmailRow) (mid : String)
    (h1 : parseSearchResponse lines ≠ []) (h2 : m.messageId = some mid)
    (h3 : mid ∈ index.map EmailRow.emailId) :
    (processNewMessages accountId folder lastSeen lines ((uid, m) :: rest) index).webhookUids
        = [uid]
    ∧ (processNewMessages accountId folder lastSeen lines ((uid, m) :: rest) index).upsertedUids
        = []
    ∧ (processNewMessages accountId folder lastSeen lines ((uid, m) :: rest) index).emailIndex
        = index
    ∧ (processNewMessages accountId folder lastSeen lines ((uid, m) :: rest) index).lastSeenUid
        = max lastSeen uid := by
  rw [processNewMessages_cons_eq accountId folder lastSeen lines uid m rest index h1]
  exact ⟨rfl, rfl, rfl, rfl⟩

/-- Witness for C2 at a concrete state whose index already holds the
Message-ID. -/
theorem claim_C2_witness :
    (processNewMessages 1 "Sent" 3 ["7"] [(7, ⟨some "<w@d>"⟩)]
      [⟨1, "<w@d>", "<w@d>", "INBOX", 2⟩]).webhookUids = [7] :=
  (claim_C2_amended 1 "Sent" 3 ["7"] 7 ⟨some "<w@d>"⟩ [] [⟨1, "<w@d>", "<w@d>", "INBOX", 2⟩]
    "<w@d>" (by decide) rfl (by decide)).1

theorem retryTraceSpec_single (hmacHex : String → String → String) (payloadJson : Nat → String)
    (secret : String) (attempt r : Nat) (log : WebhookLogRow) (b : Bool)
    (hatt : log.attempts = attempt)
    (hdel : log.delivered = true ↔ log.statusCode = some 200)
    (hb : b = true ↔ log.statusCode = some 200) :
    RetryTraceSpec hmacHex payloadJson secret
      ⟨[webhookAttempt hmacHex payloadJson secret attempt], [log], [], b⟩ attempt (r + 1) := by
  refine ⟨by simp, ?_, ?_, ?_, ?_, ?_, ?_, ?_⟩
  · simp [List.range'_succ]
  · simp [List.range'_succ, hatt]
  · intro l hl
    simp at hl
    subst hl
    exact hdel
  · simp
  · simpa using hb
  · simp
  · intro _
    simp

theorem retryTraceSpec_cons (hmacHex : String → String → String) (payloadJson : Nat → String)
    (secret : String) (attempt r : Nat) (log : WebhookLogRow) (rest : RetryTrace)
    (hrest : RetryTraceSpec hmacHex payloadJson secret rest (attempt + 1) r)
    (hr : 1 ≤ r)
    (hatt : log.attempts = attempt)
    (hdel : log.delivered = true ↔ log.statusCode = some 200)
    (hne : log.statusCode ≠ some 200)
    (hout : ∀ c, log.statusCode = some c → c < 400 ∨ 500 ≤ c) :
    RetryTraceSpec hmacHex payloadJson secret
      ⟨webhookAttempt hmacHex payloadJson secret attempt :: rest.requests, log :: rest.logs,
        2 ^ (attempt - 1) :: rest.sleeps, rest.result⟩ attempt (r + 1) := by
  obtain ⟨h1, h2, h3, h4, h5, h6, h7, h8⟩ := hrest
  have hneNil : rest.logs ≠ [] := h8 hr
  have hlen : 1 ≤ rest.logs.length := List.length_pos.mpr hneNil
  refine ⟨?_, ?_, ?_, ?_, ?_, ?_, ?_, ?_⟩
  · simpa using Nat.succ_le_succ h1
  · simp only [RetryTrace.requests, List.length_cons, List.range'_succ, List.map_cons]
    exact congrArg _ h2
  · simp only [RetryTrace.logs, List.length_cons, List.range'_succ, List.map_cons, hatt]
    exact congrArg _ h3
  · intro l hl
    rcases List.mem_cons.mp hl with h | h
    · subst h; exact hdel
    · exact h4 l h
  · simp only [RetryTrace.sleeps, RetryTrace.logs, List.length_cons, Nat.add_sub_cancel]
    have hlenEq : rest.logs.length = (rest.logs.length - 1) + 1 := by omega
    rw [hlenEq, List.range'_succ, List.map_cons]
    rw [hlenEq] at h5
    simp at h5
    exact congrArg _ h5
  · simp only [RetryTrace.result, RetryTrace.logs]
    rw [h6]
    constructor
    · intro ⟨l, hl, hsc⟩
      exact ⟨l, List.mem_cons_of_mem log hl, hsc⟩
    · intro ⟨l, hl, hsc⟩
      rcases List.mem_cons.mp hl with h | h
      · subst h; exact absurd hsc hne
      · exact ⟨l, h, hsc⟩
  · simp only [RetryTrace.logs, List.dropLast_cons_of_ne_nil hneNil]
    intro l hl
    rcases List.mem_cons.mp hl with h | h
    · subst h; exact ⟨hne, hout⟩
    · exact h7 l h
  · intro _
    simp

theorem runWebhookAttempts_spec (hmacHex : String → String → String) (payloadJson : Nat → String)
    (secret : String) (outcome : Nat → AttemptOutcome) :
    ∀ remaining attempt : Nat,
      RetryTraceSpec hmacHex payloadJson secret
        (runWebhookAttempts hmacHex payloadJson secret outcome attempt remaining)
        attempt remaining := by
  intro remaining
  induction remaining with
  | zero =>
    intro attempt
    refine ⟨by simp [runWebhookAttempts], ?_, ?_, ?_, ?_, ?_, ?_, ?_⟩ <;>
      simp [runWebhookAttempts]
  | succ r ih =>
    intro attempt
    rcases houtcome : outcome attempt with ⟨code, body⟩ | _ | msg
    · by_cases h200 : code = 200
      · have heq : runWebhookAttempts hmacHex payloadJson secret outcome attempt (r + 1)
            = ⟨[webhookAttempt hmacHex payloadJson secret attempt],
               [⟨some code, if code = 200 then none else some body, attempt, decide (code = 200)⟩],
               [], true⟩ := by
          simp [runWebhookAttempts, houtcome, h200]
        rw [heq]
        exact retryTraceSpec_single hmacHex payloadJson secret attempt r _ true
          rfl (by simp [h200]) (by simp [h200])
      · by_cases h4xx : 400 ≤ code ∧ code < 500
        · have heq : runWebhookAttempts hmacHex payloadJson secret outcome attempt (r + 1)
              = ⟨[webhookAttempt hmacHex payloadJson secret attempt],
                 [⟨some code, if code = 200 then none else some body, attempt,
                   decide (code = 200)⟩], [], false⟩ := by
            simp [runWebhookAttempts, houtcome, h200, h4xx]
          rw [heq]
          exact retryTraceSpec_single hmacHex payloadJson secret attempt r _ false
            rfl (by simp [h200]) (by simp [h200])
        · by_cases hr0 : r = 0
          · have heq : runWebhookAttempts hmacHex payloadJson secret outcome attempt (r + 1)
                = ⟨[webhookAttempt hmacHex payloadJson secret attempt],
                   [⟨some code, if code = 200 then none else some body, attempt,
                     decide (code = 200)⟩], [], false⟩ := by
              simp [runWebhookAttempts, houtcome, h200, h4xx, retryContinue, hr0]
            rw [heq]
            exact retryTraceSpec_single hmacHex payloadJson secret attempt r _ false
              rfl (by simp [h200]) (by simp [h200])
          · have heq : runWebhookAttempts hmacHex payloadJson secret outcome attempt (r + 1)
                = ⟨webhookAttempt hmacHex payloadJson secret attempt
                     :: (runWebhookAttempts hmacHex payloadJson secret outcome (attempt + 1) r).requests,
                   ⟨some code, if code = 200 then none else some body, attempt, decide (code = 200)⟩
                     :: (runWebhookAttempts hmacHex payloadJson secret outcome (attempt + 1) r).logs,
                   2 ^ (attempt - 1)
                     :: (runWebhookAttempts hmacHex payloadJson secret outcome (attempt + 1) r).sleeps,
                   (runWebhookAttempts hmacHex payloadJson secret outcome (attempt + 1) r).result⟩ := by
              simp [runWebhookAttempts, houtcome, h200, h4xx, retryContinue, hr0]
            rw [heq]
            exact retryTraceSpec_cons hmacHex payloadJson secret attempt r _ _ (ih (attempt + 1))
              (by omega) rfl (by simp [h200]) (by simp [h200]) (by intro c hc; simp at hc; omega)
    · by_cases hr0 : r = 0
      · have heq : runWebhookAttempts hmacHex payloadJson secret outcome attempt (r + 1)
            = ⟨[webhookAttempt hmacHex payloadJson secret attempt],
               [⟨none, some "Timeout", attempt, false⟩], [], false⟩ := by
          simp [runWebhookAttempts, houtcome, retryContinue, hr0]
        rw [heq]
        exact retryTraceSpec_single hmacHex payloadJson secret attempt r _ false
          rfl (by simp) (by simp)
      · have heq : runWebhookAttempts hmacHex payloadJson secret outcome attempt (r + 1)
            = ⟨webhookAttempt hmacHex payloadJson secret attempt
                 :: (runWebhookAttempts hmacHex payloadJson secret outcome (attempt + 1) r).requests,
               ⟨none, some "Timeout", attempt, false⟩
                 :: (runWebhookAttempts hmacHex payloadJson secret outcome (attempt + 1) r).logs,
               2 ^ (attempt - 1)
                 :: (runWebhookAttempts hmacHex payloadJson secret outcome (attempt + 1) r).sleeps,
               (runWebhookAttempts hmacHex payloadJson secret outcome (attempt + 1) r).result⟩ := by
          simp [runWebhookAttempts, houtcome, retryContinue, hr0]
        rw [heq]
        exact retryTraceSpec_cons hmacHex payloadJson secret attempt r _ _ (ih (attempt + 1))
          (by omega) rfl (by simp) (by simp) (by intro c hc; simp at hc)
    · by_cases hr0 : r = 0
      · have heq : runWebhookAttempts hmacHex payloadJson secret outcome attempt (r + 1)
            = ⟨[webhookAttempt hmacHex payloadJson secret attempt],
               [⟨none, some msg, attempt, false⟩], [], false⟩ := by
          simp [runWebhookAttempts, houtcome, retryContinue, hr0]
        rw [heq]
        exact retryTraceSpec_single hmacHex payloadJson secret attempt r _ false
          rfl (by simp) (by simp)
      · have heq : runWebhookAttempts hmacHex payloadJson secret outcome attempt (r + 1)
            = ⟨webhookAttempt hmacHex payloadJson secret attempt
                 :: (runWebhookAttempts hmacHex payloadJson secret outcome (attempt + 1) r).requests,
               ⟨none, some msg, attempt, false⟩
                 :: (runWebhookAttempts hmacHex payloadJson secret outcome (attempt + 1) r).logs,
               2 ^ (attempt - 1)
                 :: (runWebhookAttempts hmacHex payloadJson secret outcome (attempt + 1) r).sleeps,
               (runWebhookAttempts hmacHex payloadJson secret outcome (attempt + 1) r).result⟩ := by
          simp [runWebhookAttempts, houtcome, retryContinue, hr0]
        rw [heq]
        exact retryTraceSpec_cons hmacHex payloadJson secret attempt r _ _ (ih (attempt + 1))
          (by omega) rfl (by simp) (by simp) (by intro c hc; simp at hc)

/-- C4 counterexample: an attempt answered with HTTP 201 — a 2xx status —
does not stop the dispatcher and is not recorded as delivered: with
`max_retries = 3` and every attempt returning 201, three attempts are made,
every WebhookLog row has `delivered_at` null, and the call reports failure,
refuting "an attempt returning 2xx stops retrying and records the delivery
as delivered". -/
theorem claim_C4_counterexample :
    (sendWebhookWithRetry (fun _ _ => "sig") (fun _ => "body") (some "sec")
        (fun _ => .status 201 "Created") 3).logs.length = 3
    ∧ (∀ log ∈ (sendWebhookWithRetry (fun _ _ => "sig") (fun _ => "body") (some "sec")
        (fun _ => .status 201 "Created") 3).logs, log.delivered = false)
    ∧ (sendWebhookWithRetry (fun _ _ => "sig") (fun _ => "body") (some "sec")
        (fun _ => .status 201 "Created") 3).result = false
    ∧ (sendWebhookWithRetry (fun _ _ => "sig") (fun _ => "body") (some "sec")
        (fun _ => .status 201 "Created") 3).logs.map WebhookLogRow.statusCode
        = [some 201, some 201, some 201] := by
  refine ⟨by decide, by decide, by decide, by decide⟩

/-- C4 amended: for every delivery the dispatcher makes at most `max_retries`
attempts (default 3); an attempt returning exactly HTTP 200 stops retrying
and is the only kind recorded as delivered (`delivered_at` non-null iff the
attempt returned 200 — any other status, 2xx included, is logged undelivered);
a 4xx response stops immediately; every non-final attempt was a retryable
outcome (neither 200 nor 4xx: a non-200/non-4xx status, a timeout, or a
transport error), and before each retry the dispatcher sleeps
`base * 2^(attempt-1)` seconds (base = 1 s); every attempt persists exactly
one WebhookLog row, numbered consecutively from 1. -/
theorem claim_C4_retry_policy (hmacHex : String → String → String) (payloadJson : Nat → String)
    (secret : Option String) (outcome : Nat → AttemptOutcome) (maxRetries : Nat) :
    webhookMaxRetriesDefault = 3
    ∧ RetryTraceSpec hmacHex payloadJson (secret.getD "")
        (sendWebhookWithRetry hmacHex payloadJson secret outcome maxRetries) 1 maxRetries :=
  ⟨rfl, runWebhookAttempts_spec hmacHex payloadJson (secret.getD "") outcome maxRetries 1⟩

/-- Witness for C4 at a concrete always-500 delivery with the default three
retries. -/
theorem claim_C4_witness :
    (sendWebhookWithRetry (fun _ _ => "s") (fun _ => "b") none
        (fun _ => .status 500 "err") 3).logs.length ≤ 3 :=
  (claim_C4_retry_policy (fun _ _ => "s") (fun _ => "b") none
    (fun _ => .status 500 "err") 3).2.1

/-- C5: every POST of the dispatcher carries `x-nylas-signature` equal to
the HMAC-SHA256 hex digest of the secret over the exact body sent whenever
the owning App's webhook secret is non-empty (given that the digest function
never returns the empty string, as a hex digest never is), and carries no
such header when the secret is absent or empty. -/
theorem claim_C5_signed_body_integrity (hmacHex : String → String → String)
    (payloadJson : Nat → String) (secret : Option String) (outcome : Nat → AttemptOutcome)
    (maxRetries : Nat) (hh : ∀ b, hmacHex (secret.getD "") b ≠ "") :
    ∀ req ∈ (sendWebhookWithRetry hmacHex payloadJson secret outcome maxRetries).requests,
      req.signature = if secret.getD "" = "" then none
                      else some (hmacHex (secret.getD "") req.body) := by
  intro req hreq
  have hspec := runWebhookAttempts_spec hmacHex payloadJson (secret.getD "") outcome maxRetries 1
  have hreq2 : req ∈ (List.range' 1
      (runWebhookAttempts hmacHex payloadJson (secret.getD "") outcome 1 maxRetries).logs.length).map
      (webhookAttempt hmacHex payloadJson (secret.getD "")) := by
    rw [← hspec.2.1]
    exact hreq
  obtain ⟨a, _, rfl⟩ := List.mem_map.mp hreq2
  by_cases hsec : secret.getD "" = ""
  · have hemp : ("" : String).isEmpty = true := rfl
    simp [webhookAttempt, generateSignature, hsec, hemp]
  · have hs : (secret.getD "").isEmpty = false := by
      rcases h : (secret.getD "").isEmpty with _ | _
      · rfl
      · exact absurd ((String.isEmpty_iff _).mp h) hsec
    have hne := hh (payloadJson a)
    have hne2 : (hmacHex (secret.getD "") (payloadJson a)).isEmpty = false := by
      rcases h : (hmacHex (secret.getD "") (payloadJson a)).isEmpty with _ | _
      · rfl
      · exact absurd ((String.isEmpty_iff _).mp h) hne
    simp [webhookAttempt, generateSignature, hs, hne2, hsec]

/-- Witness for C5: at a concrete delivery with secret `k`, the header sent
equals the digest of the body. -/
theorem claim_C5_witness :
    WebhookRequest.signature ⟨"p", some "ab"⟩ = some "ab" := by
  have h := claim_C5_signed_body_integrity (fun _ _ => "ab") (fun _ => "p") (some "k")
    (fun _ => AttemptOutcome.status 200 "ok") 3
    (fun _ => by show ("ab" : String) ≠ ""; decide)
  have hm : (⟨"p", some "ab"⟩ : WebhookRequest)
      ∈ (sendWebhookWithRetry (fun _ _ => "ab") (fun _ => "p") (some "k")
          (fun _ => AttemptOutcome.status 200 "ok") 3).requests := by decide
  have h2 := h ⟨"p", some "ab"⟩ hm
  rw [h2]
  decide

theorem getByCode_markUsedActivate (rows : List AuthCodeRow) (code : String) :
    getByCode (markUsedActivate rows code) code
      = (getByCode rows code).map
          (fun r => { r with codeUsed := true, accountActive := true }) := by
  induction rows with
  | nil => rfl
  | cons r rs ih =>
    rcases h : (r.code == code) with _ | _
    · simp only [markUsedActivate, h, Bool.false_eq_true, if_false, getByCode, List.find?, h]
      exact ih
    · simp [markUsedActivate, h, getByCode, List.find?]

/-- C6: the authorization code is one-shot with atomic validation — when
the stored row for the presented code is unused, unexpired, and bound to
the presenting app: a redirect_uri mismatch fails with status 400
("Invalid redirect_uri.") and leaves the stored rows (hence the unused
code) untouched, so a later exchange with the matching redirect_uri
succeeds; a matching exchange succeeds, marks the code used, and every
subsequent exchange of the same code fails with status 400. -/
theorem claim_C6_one_shot_code (rows : List AuthCodeRow) (app : AppRow) (req : TokenReq)
    (now : Nat) (row : AuthCodeRow)
    (hf : getByCode rows req.code = some row)
    (hgt : req.grantType = "authorization_code")
    (hcid : req.clientId = app.uuid)
    (hused : row.codeUsed = false)
    (hexp : now < row.expiresAt)
    (happ : row.appId = app.id) :
    (row.redirectUri ≠ req.redirectUri →
      tokenExchange rows app req now = (.err 400 "Invalid redirect_uri.", rows))
    ∧ (row.redirectUri = req.redirectUri →
      tokenExchange rows app req now = (.ok row.accountUuid, markUsedActivate rows req.code)
      ∧ (getByCode (markUsedActivate rows req.code) req.code).map AuthCodeRow.codeUsed
          = some true
      ∧ ∀ now2 : Nat, tokenExchange (markUsedActivate rows req.code) app req now2
          = (.err 400 "Authorization code expired or already used.",
             markUsedActivate rows req.code)) := by
  have hvalid : isValidAuthCode row now = true := by
    simp [isValidAuthCode, hused, hexp]
  constructor
  · intro hmm
    simp [tokenExchange, hgt, hcid, hf, hvalid, hmm]
  · intro heq
    refine ⟨?_, ?_, ?_⟩
    · simp [tokenExchange, hgt, hcid, hf, hvalid, heq, happ]
    · rw [getByCode_markUsedActivate, hf]
      rfl
    · intro now2
      have hf2 : getByCode (markUsedActivate rows req.code) req.code
          = some { row with codeUsed := true, accountActive := true } := by
        rw [getByCode_markUsedActivate, hf]
        rfl
      simp [tokenExchange, hgt, hcid, hf2, isValidAuthCode]

/-- Witness for C6 at a concrete stored code: the first exchange succeeds,
the immediate re-exchange of the same code fails with 400. -/
theorem claim_C6_witness :
    tokenExchange [⟨1, "https://cb", "c0", false, 100, "acct-uuid", false⟩]
        ⟨1, "client-uuid"⟩ ⟨"authorization_code", "c0", "https://cb", "client-uuid"⟩ 5
      = (.ok "acct-uuid",
         markUsedActivate [⟨1, "https://cb", "c0", false, 100, "acct-uuid", false⟩] "c0")
    ∧ tokenExchange
        (markUsedActivate [⟨1, "https://cb", "c0", false, 100, "acct-uuid", false⟩] "c0")
        ⟨1, "client-uuid"⟩ ⟨"authorization_code", "c0", "https://cb", "client-uuid"⟩ 7
      = (.err 400 "Authorization code expired or already used.",
         markUsedActivate [⟨1, "https://cb", "c0", false, 100, "acct-uuid", false⟩] "c0") := by
  have h := claim_C6_one_shot_code
    [⟨1, "https://cb", "c0", false, 100, "acct-uuid", false⟩] ⟨1, "client-uuid"⟩
    ⟨"authorization_code", "c0", "https://cb", "client-uuid"⟩ 5
    ⟨1, "https://cb", "c0", false, 100, "acct-uuid", false⟩
    (by decide) rfl rfl rfl (by decide) rfl
  exact ⟨(h.2 rfl).1, (h.2 rfl).2.2 7⟩

/-- C7, evaluated at the failing input `mixedMessageExample`: the API lists
the sole attachment under id `att_2` (`MessageController._extract_attachments`
numbers by 0-based walk position), but the download path
(`MessageUtils.extract_attachment_content`, which counts only attachment
parts starting at 1) returns `none` for `att_2` — the round trip fails,
404-ing the listed id. Under the claimed scheme (id `att_1`, the numbering
`MessageUtils.extract_attachments` implements) the same part's exact bytes
are returned. -/
theorem claim_C7_attachment_id_mismatch :
    (mcExtractAttachments mixedMessageExample).map AttachmentMeta.id = ["att_2"]
    ∧ muExtractAttachmentContent mixedMessageExample "att_2" = none
    ∧ (muExtractAttachments mixedMessageExample).map AttachmentMeta.id = ["att_1"]
    ∧ muExtractAttachmentContent mixedMessageExample "att_1" = some [1, 2, 3] := by
  refine ⟨by decide, by decide, by decide, by decide⟩

/-- C8, evaluated at the failing input — an account stored at authorization
with encrypted credentials for password `hunter2`: the LOGIN issued by the
connection manager sends the stored ciphertext, not its decryption, while
the SMTP send path decrypts the same blob; the two disagree, contradicting
the claim (and making IMAP authentication impossible for any account whose
ciphertext differs from its plaintext). -/
theorem claim_C8_imap_login_uses_ciphertext :
    imapLoginPassword ⟨"user@example.com", encryptPassword fernetModel "hunter2"⟩
        = "gAAAAhunter2"
    ∧ smtpLoginPassword fernetModel
        ⟨"user@example.com", encryptPassword fernetModel "hunter2"⟩ = "hunter2"
    ∧ imapLoginPassword ⟨"user@example.com", encryptPassword fernetModel "hunter2"⟩
        ≠ decryptPassword fernetModel
            (AccountCreds.credentials ⟨"user@example.com", encryptPassword fernetModel "hunter2"⟩)
    ∧ decryptPassword fernetModel (encryptPassword fernetModel "hunter2") = "hunter2" := by
  refine ⟨by decide, by decide, by decide, by decide⟩

/-- C9: replying composes `References` as the replied message's References
list followed by its `<...>`-formatted Message-ID (just the formatted id
when it has no References — the two cases coincide as list append),
`In-Reply-To` as the replied message's formatted Message-ID, and returns the
replied message's thread id; a fresh send sets no References header and its
thread id is the newly generated Message-ID. -/
theorem claim_C9_reply_threading (replied : RepliedMessage) (newMessageId : String)
    (hmid : replied.messageId ≠ "") :
    (smtpSendEmail (some replied) newMessageId).headers.references
        = some (joinSpace (parseReferences replied.referencesHeader
            ++ [formatMessageId replied.messageId]))
    ∧ (smtpSendEmail (some replied) newMessageId).headers.inReplyTo
        = some (formatMessageId replied.messageId)
    ∧ (smtpSendEmail (some replied) newMessageId).threadId = replied.threadId
    ∧ (smtpSendEmail none newMessageId).headers.references = none
    ∧ (smtpSendEmail none newMessageId).threadId = newMessageId := by
  have hemp : replied.messageId.isEmpty = false := by
    rcases h : replied.messageId.isEmpty with _ | _
    · rfl
    · exact absurd ((String.isEmpty_iff _).mp h) hmid
  refine ⟨?_, ?_, rfl, rfl, rfl⟩
  · rcases href : parseReferences replied.referencesHeader with _ | ⟨r, rs⟩
    · simp [smtpSendEmail, createMessageHeaders, href]
    · simp [smtpSendEmail, createMessageHeaders, href]
  · simp [smtpSendEmail, createMessageHeaders, hemp]

/-- Witness for C9 at the spec's concrete reply scenario: replying to
`<a@d>` whose References are `<r1> <r2>` yields References
`<r1> <r2> <a@d>`, In-Reply-To `<a@d>`, and the replied thread id. -/
theorem claim_C9_witness :
    (smtpSendEmail (some ⟨some "<r1> <r2>", "<a@d>", "thread-1"⟩) "<new@d>").headers.references
        = some "<r1> <r2> <a@d>"
    ∧ (smtpSendEmail (some ⟨some "<r1> <r2>", "<a@d>", "thread-1"⟩) "<new@d>").headers.inReplyTo
        = some "<a@d>"
    ∧ (smtpSendEmail (some ⟨some "<r1> <r2>", "<a@d>", "thread-1"⟩) "<new@d>").threadId
        = "thread-1" := by
  have h := claim_C9_reply_threading ⟨some "<r1> <r2>", "<a@d>", "thread-1"⟩ "<new@d>"
    (by decide)
  refine ⟨?_, ?_, h.2.2.1⟩
  · rw [h.1]
    decide
  · rw [h.2.1]
    decide

end Nolas

